import Mathlib

/-!
Shallow embedding of `ebay_cralwer.py` (class `EbayCrawler`).

Strings are modelled as `List Char` (`Str`).  External collaborators
(the HTTP transport `requests.get` + `raise_for_status`, the HTML parser
`BeautifulSoup`, and `urllib.parse.urljoin`) are modelled as an `Env`
record: `fetch` returns the already-parsed page document, or `none` on a
`requests.RequestException`; `urljoin` is an abstract URL resolver.
The filesystem directory `self.data_dir` is modelled as an association
list of `(filename, content)` pairs.  Logging calls are modelled as an
explicit list of `LogEvent`s so that diagnostic-related claims are
statable.  Python truthiness on strings (`if not product_url`,
`if condition_filter and ...`, `if not item_id`) is modelled as the
explicit test against the empty string.
-/

/-- Strings of the Python program, modelled as lists of characters. -/
abbrev Str := List Char

/-- Coerce a Lean string literal into the `Str` model. -/
def str (s : String) : Str := s.data

/-- Whitespace characters removed by Python `str.strip()` (ASCII range). -/
def isPySpace (c : Char) : Bool :=
  c == ' ' || c == '\t' || c == '\n' || c == '\r' || c == '\x0b' || c == '\x0c'

/-- Python `str.strip()`: drop leading and trailing whitespace. -/
def pyStrip (s : Str) : Str :=
  ((s.dropWhile isPySpace).reverse.dropWhile isPySpace).reverse

/-- Python `str.lower()` on one character (ASCII range; the condition
labels and filter values of the program are ASCII). -/
def lowerChar (c : Char) : Char :=
  if 'A' ≤ c ∧ c ≤ 'Z' then Char.ofNat (c.toNat + 32) else c

/-- Python `str.lower()`. -/
def strLower (s : Str) : Str := s.map lowerChar

/-- The literal marker of the regex `/itm/(\d+)` in `extract_item_id`. -/
def marker : Str := str "/itm/"

/-- Maximal run of digits at the front of a string: the `\d+` group. -/
def digitsOf (t : Str) : Str := t.takeWhile (fun c => c.isDigit)

/-- `extract_item_id` (source lines 68-71): `re.search(r'/itm/(\d+)', url)`
scans left to right for the first position where the literal `/itm/` is
followed by at least one digit and returns the maximal digit run there;
otherwise the result is `None`. -/
def extract_item_id : Str → Option Str
  | [] => none
  | c :: cs =>
      if marker <+: (c :: cs) ∧ digitsOf (List.drop 5 (c :: cs)) ≠ []
      then some (digitsOf (List.drop 5 (c :: cs)))
      else extract_item_id cs

/-- The literal separator `' to '` of `price.split(' to ')`. -/
def sepTo : Str := str " to "

/-- `price.split(' to ')[0]`: the segment before the first occurrence of
the separator (the whole string when no separator occurs). -/
def beforeTo : Str → Str
  | [] => []
  | c :: cs => if sepTo <+: (c :: cs) then [] else c :: beforeTo cs

/-- Characters kept by `re.sub(r'[^\d.]', '', ...)`. -/
def priceChar (c : Char) : Bool := c.isDigit || c == '.'

/-- One listing node (`li.s-item`), as seen through the BeautifulSoup
queries of `parse_item`: the stripped-source text of each optional child
element, and the `href` of the `a.s-item__link` anchor when present. -/
structure ItemNode where
  titleElem : Option Str
  priceElem : Option Str
  linkHref : Option Str
  conditionElem : Option Str
deriving DecidableEq

/-- The dictionary built at source lines 102-107. -/
structure ListingRecord where
  title : Str
  condition : Str
  price : Str
  product_url : Str
deriving DecidableEq

/-- Levels of the logging module used by the crawler. -/
inductive LogLevel
  | debug
  | info
  | warning
  | error
deriving DecidableEq

/-- One logging call of the source, in program order. -/
inductive LogEvent
  | processingPage (url : Str)          -- line 111, info
  | fetchFailed (url : Str)             -- line 117, error
  | foundItems (n : Nat)                -- line 122, info
  | skipCondition (condition : Str)     -- line 93, debug
  | noItemId (url : Str)                -- line 98, warning
  | parsedItem (title condition price : Str)  -- line 101, debug
  | savingItems (n : Nat)               -- line 133, info
  | savedItem (id : Str)                -- line 66, debug
  | foundNextPage (url : Str)           -- line 141, info
  | noMorePages                         -- line 143, info
  | startCrawl (store : Str)            -- line 149, info
  | processingPageNum (n : Nat)         -- line 155, info
  | extractedNew (n pageNum : Nat)      -- line 162, info
  | crawlCompleted (pages items : Nat)  -- line 167, info
deriving DecidableEq

/-- The logging level of each event, as in the source. -/
def LogEvent.level : LogEvent → LogLevel
  | .processingPage _ => .info
  | .fetchFailed _ => .error
  | .foundItems _ => .info
  | .skipCondition _ => .debug
  | .noItemId _ => .warning
  | .parsedItem _ _ _ => .debug
  | .savingItems _ => .info
  | .savedItem _ => .debug
  | .foundNextPage _ => .info
  | .noMorePages => .info
  | .startCrawl _ => .info
  | .processingPageNum _ => .info
  | .extractedNew _ _ => .info
  | .crawlCompleted _ _ => .info

/-- Source lines 75-76: `title_elem.text.strip() if title_elem else "No title"`. -/
def itemTitle (item : ItemNode) : Str :=
  match item.titleElem with
  | some t => pyStrip t
  | none => str "No title"

/-- Source lines 78-81: the price text (default `"0.00"`), split on
`' to '`, first segment, non-digit non-dot characters removed. -/
def itemPrice (item : ItemNode) : Str :=
  let price0 := match item.priceElem with
    | some p => pyStrip p
    | none => str "0.00"
  (beforeTo price0).filter priceChar

/-- Source lines 88-89: `condition_elem.text.strip() if condition_elem else "Unknown"`. -/
def itemCondition (item : ItemNode) : Str :=
  match item.conditionElem with
  | some c => pyStrip c
  | none => str "Unknown"

/-- Source line 92: `if condition_filter and condition.lower() != condition_filter.lower()`.
An absent filter, and also an empty-string filter (falsy in Python),
never rejects. -/
def filterRejects (condition_filter : Option Str) (condition : Str) : Bool :=
  match condition_filter with
  | none => false
  | some f => if f = [] then false else decide (strLower condition ≠ strLower f)

/-- `parse_item` (source lines 73-107).  Returns the parsed record (or
`None`) together with the logging calls it makes.  A listing without a
truthy `href` is dropped with no logging (lines 83-86); a filtered-out
listing is dropped with a debug event (lines 92-94); a listing whose URL
yields no item id is dropped with a warning (lines 96-99). -/
def parse_item (item : ItemNode) (condition_filter : Option Str) :
    Option ListingRecord × List LogEvent :=
  let title := itemTitle item
  let price := itemPrice item
  match item.linkHref with
  | none => (none, [])
  | some product_url =>
      if product_url = [] then (none, [])
      else
        let condition := itemCondition item
        if filterRejects condition_filter condition then
          (none, [LogEvent.skipCondition condition])
        else
          match extract_item_id product_url with
          | none => (none, [LogEvent.noItemId product_url])
          | some item_id =>
              if item_id = [] then (none, [LogEvent.noItemId product_url])
              else (some ⟨title, condition, price, product_url⟩,
                    [LogEvent.parsedItem title condition price])

/-- The data directory `self.data_dir`, modelled as an association list of
`(filename, content)` pairs; one entry per file. -/
abbrev FS := List (Str × Str)

/-- Writing a file: replace the content when the name already exists,
otherwise append a new entry (filesystem `open(filename, 'w')` semantics). -/
def fsWrite (fs : FS) (name content : Str) : FS :=
  if fs.any (fun p => decide (p.1 = name)) then
    fs.map (fun p => if p.1 = name then (name, content) else p)
  else fs ++ [(name, content)]

/-- One hexadecimal digit, lower case. -/
def hexDigit (n : Nat) : Char :=
  if n < 10 then Char.ofNat (48 + n) else Char.ofNat (87 + n)

/-- JSON string escaping as performed by `json.dumps` on the record's
field values (ASCII control characters and the two mandatory escapes;
the record fields of this program are ASCII page text). -/
def jsonEscapeChar (c : Char) : Str :=
  if c = '"' then ['\\', '"']
  else if c = '\\' then ['\\', '\\']
  else if c = '\n' then ['\\', 'n']
  else if c = '\t' then ['\\', 't']
  else if c = '\r' then ['\\', 'r']
  else if c = '\x08' then ['\\', 'b']
  else if c = '\x0c' then ['\\', 'f']
  else if c.toNat < 32 then
    ['\\', 'u', '0', '0', hexDigit (c.toNat / 16), hexDigit (c.toNat % 16)]
  else [c]

/-- A JSON string literal. -/
def jsonStr (s : Str) : Str := '"' :: (s.map jsonEscapeChar).flatten ++ ['"']

/-- One `indent=4` field line of the serialized record. -/
def jsonField (key : String) (v : Str) : Str :=
  str "    " ++ jsonStr (str key) ++ str ": " ++ jsonStr v

/-- `json.dumps(data, indent=4)` for the four-field dict of lines 102-107,
with the dict's insertion order. -/
def jsonDumps (r : ListingRecord) : Str :=
  str "\x7b\n" ++ jsonField "title" r.title ++ str ",\n"
    ++ jsonField "condition" r.condition ++ str ",\n"
    ++ jsonField "price" r.price ++ str ",\n"
    ++ jsonField "product_url" r.product_url ++ str "\n\x7d"

/-- `write_json_file` (source lines 61-66): write the serialized record
under `f"{item_id}.json"` and log a debug event. -/
def write_json_file (fs : FS) (item_id : Str) (data : ListingRecord) :
    FS × List LogEvent :=
  (fsWrite fs (item_id ++ str ".json") (jsonDumps data), [LogEvent.savedItem item_id])

/-- Source line 158: `len([f for f in os.listdir(self.data_dir) if f.endswith('.json')])`. -/
def jsonCount (fs : FS) : Nat :=
  (fs.filter (fun p => decide (str ".json" <:+ p.1))).length

/-- One step of the per-page write fan-out (the `asyncio.gather` of line
134, sequentialized): write one record, accumulate its log events. -/
def savePair (acc : FS × List LogEvent) (t : Str × ListingRecord) :
    FS × List LogEvent :=
  ((write_json_file acc.1 t.1 t.2).1, acc.2 ++ (write_json_file acc.1 t.1 t.2).2)

/-- One parsed page document: the listing nodes found by
`soup.find_all('li', class_='s-item')` and the `href` of the
`a.pagination__next` anchor when that anchor exists. -/
structure PageDoc where
  items : List ItemNode
  nextHref : Option Str
deriving DecidableEq

/-- The external collaborators: the store name (crawler constructor
argument), the transport+parser (`fetch` is `requests.get` +
`raise_for_status` + `BeautifulSoup`; `none` models a
`requests.RequestException`), and `urllib.parse.urljoin`. -/
structure Env where
  storeName : Str
  fetch : Str → Option PageDoc
  urljoin : Str → Str → Str

/-- Source line 20: `f"https://www.ebay.com/sch/{store_name}/m.html"`. -/
def baseUrl (env : Env) : Str :=
  str "https://www.ebay.com/sch/" ++ env.storeName ++ str "/m.html"

/-- Source line 138: `urljoin(self.base_url, next_page['href']) if next_page else None`. -/
def nextResolved (env : Env) (doc : PageDoc) : Option Str :=
  doc.nextHref.map (fun h => env.urljoin (baseUrl env) h)

/-- `process_page` (source lines 109-145): fetch and parse the page (on a
transport error, log and return `None`), parse every listing node, write
every valid record, and return the resolved next-page URL together with
the updated directory and the log events, in program order. -/
def process_page (env : Env) (fs : FS) (url : Str) (condition_filter : Option Str) :
    FS × Option Str × List LogEvent :=
  match env.fetch url with
  | none => (fs, none, [LogEvent.processingPage url, LogEvent.fetchFailed url])
  | some soup =>
      let parsed := soup.items.map (fun it => parse_item it condition_filter)
      let tasks := (parsed.filterMap Prod.fst).filterMap (fun r =>
          match extract_item_id r.product_url with
          | none => none
          | some id => if id = [] then none else some (id, r))
      let writes := tasks.foldl savePair (fs, [])
      (writes.1, nextResolved env soup,
        [LogEvent.processingPage url, LogEvent.foundItems soup.items.length]
          ++ (parsed.map Prod.snd).flatten
          ++ (if tasks = [] then [] else [LogEvent.savingItems tasks.length])
          ++ writes.2
          ++ (match nextResolved env soup with
              | some nu => [LogEvent.foundNextPage nu]
              | none => [LogEvent.noMorePages]))

/-- The value returned by `crawl` (the `(page_count, item_count)` pair),
together with the final directory contents and log, made explicit. -/
structure CrawlResult where
  pages : Nat
  items : Nat
  fs : FS
  log : List LogEvent
deriving DecidableEq

/-- The `while url:` loop of `crawl` (source lines 154-168), with an
explicit fuel bound: `none` means the fuel ran out before the loop did.
Each iteration processes the page, re-counts the `.json` files of the
data directory, attributes the delta to the current page, and advances. -/
def crawlLoop (env : Env) (condition_filter : Option Str) :
    Nat → Option Str → FS → Nat → Nat → List LogEvent → Option CrawlResult
  | _, none, fs, page_count, item_count, log =>
      some ⟨page_count, item_count, fs,
        log ++ [LogEvent.crawlCompleted page_count item_count]⟩
  | 0, some _, _, _, _, _ => none
  | fuel + 1, some u, fs, page_count, item_count, log =>
      let step := process_page env fs u condition_filter
      crawlLoop env condition_filter fuel step.2.1 step.1 (page_count + 1)
        (jsonCount step.1)
        (log ++ [LogEvent.processingPageNum (page_count + 1)] ++ step.2.2
          ++ [LogEvent.extractedNew (jsonCount step.1 - item_count) (page_count + 1)])

/-- `crawl` (source lines 147-168): start from the storefront's base URL
with zero counters and loop until no next page. -/
def crawl (env : Env) (condition_filter : Option Str) (fuel : Nat) (fs : FS) :
    Option CrawlResult :=
  crawlLoop env condition_filter fuel (some (baseUrl env)) fs 0 0
    [LogEvent.startCrawl env.storeName]

/-- A finite pagination chain under `env`: each URL fetches to a document
whose resolved next-page reference is the following URL, and the last
document has none. -/
def ChainFrom (env : Env) : List Str → Prop
  | [] => True
  | u :: rest => ∃ doc, env.fetch u = some doc ∧
      nextResolved env doc = rest.head? ∧ ChainFrom env rest

/-- The page-delta value carried by an `extractedNew` log event. -/
def deltaOf : LogEvent → Option Nat
  | .extractedNew n _ => some n
  | _ => none

/-- Sum of the per-page "Extracted N new items" deltas of a log. -/
def sumDeltas (log : List LogEvent) : Nat := (log.filterMap deltaOf).sum

/-- A transport that always fails: every fetch raises. -/
def envFail : Env := ⟨str "s", fun _ => none, fun _ h => h⟩

/-- A transport that always succeeds with an empty single page. -/
def envDone : Env := ⟨str "s", fun _ => some ⟨[], none⟩, fun _ h => h⟩

/-- A listing node with a valid product URL and no optional fields. -/
def itemBare : ItemNode := ⟨none, none, some (str "https://www.ebay.com/itm/55"), none⟩

/-- A listing node with condition `New` and a valid product URL. -/
def itemNew : ItemNode :=
  ⟨some (str "A"), some (str "$1.00"), some (str "https://www.ebay.com/itm/9"),
   some (str "New")⟩

/-- A listing node with condition `Used` and a valid product URL. -/
def itemUsed : ItemNode :=
  ⟨some (str "B"), some (str "$2.00"), some (str "https://www.ebay.com/itm/8"),
   some (str "Used")⟩

/-- A listing node lacking a product URL (no `a.s-item__link` anchor). -/
def itemNoLink : ItemNode := ⟨some (str "C"), some (str "$3.00"), none, none⟩

/-- The five-node page of the partial-page-resilience scenario: nodes 2
and 4 lack a product URL, the other three are valid. -/
def page5 : PageDoc :=
  ⟨[⟨none, none, some (str "https://www.ebay.com/itm/101"), none⟩,
    itemNoLink,
    ⟨none, none, some (str "https://www.ebay.com/itm/102"), none⟩,
    itemNoLink,
    ⟨none, none, some (str "https://www.ebay.com/itm/103"), none⟩], none⟩

/-- Environment serving `page5` at every URL. -/
def env6 : Env := ⟨str "s", fun _ => some page5, fun _ h => h⟩

/-- The synthetic three-page chain: page 1 has one `New` item, page 2 has
one `Used` item (filtered out under filter `New`), page 3 is empty and
has no next link. -/
def env3 : Env :=
  ⟨str "s",
   fun u =>
     if u = str "u2" then some ⟨[itemUsed], some (str "u3")⟩
     else if u = str "u3" then some ⟨[], none⟩
     else if u = str "https://www.ebay.com/sch/s/m.html" then
       some ⟨[itemNew], some (str "u2")⟩
     else none,
   fun _ h => h⟩

/-- Environment with a single empty page, used with a pre-populated data
directory. -/
def envP : Env := ⟨str "s", fun _ => some ⟨[], none⟩, fun _ h => h⟩

/-- A data directory left over from a prior partial run: two record files
and one unrelated file. -/
def fsPre : FS :=
  [(str "a.json", str "x"), (str "b.json", str "y"), (str "c.txt", str "z")]

/-- Two distinct records under the same item id. -/
def rec1 : ListingRecord := ⟨str "A", str "New", str "1.00", str "https://e/itm/7"⟩

/-- Second write's record, different content from `rec1`. -/
def rec2 : ListingRecord := ⟨str "B", str "Used", str "2.00", str "https://e/itm/7"⟩

lemma marker_eq : marker = ['/', 'i', 't', 'm', '/'] := rfl

lemma marker_length : marker.length = 5 := rfl

/-- Unfolding `extract_item_id` when the pattern matches at the head. -/
lemma extract_item_id_pos (s : Str)
    (h : marker <+: s ∧ digitsOf (List.drop 5 s) ≠ []) :
    extract_item_id s = some (digitsOf (List.drop 5 s)) := by
  cases s with
  | nil =>
      exfalso
      have := List.prefix_nil.mp h.1
      rw [marker_eq] at this
      exact absurd this (by simp)
  | cons a cs =>
      show (if marker <+: (a :: cs) ∧ digitsOf (List.drop 5 (a :: cs)) ≠ []
            then some (digitsOf (List.drop 5 (a :: cs)))
            else extract_item_id cs) = _
      rw [if_pos h]

/-- Unfolding `extract_item_id` when the pattern does not match at the head. -/
lemma extract_item_id_neg (a : Char) (cs : Str)
    (h : ¬(marker <+: (a :: cs) ∧ digitsOf (List.drop 5 (a :: cs)) ≠ [])) :
    extract_item_id (a :: cs) = extract_item_id cs := by
  show (if marker <+: (a :: cs) ∧ digitsOf (List.drop 5 (a :: cs)) ≠ []
        then some (digitsOf (List.drop 5 (a :: cs)))
        else extract_item_id cs) = _
  rw [if_neg h]

/-- The head of `dropWhile p` never satisfies `p`. -/
lemma head?_dropWhile_neg (p : Char → Bool) :
    ∀ (l : Str) (c : Char), (l.dropWhile p).head? = some c → p c = false := by
  intro l
  induction l with
  | nil => intro c h; simp [List.dropWhile] at h
  | cons a t ih =>
      intro c h
      rw [List.dropWhile_cons] at h
      by_cases ha : p a
      · rw [if_pos ha] at h
        exact ih c h
      · rw [if_neg ha] at h
        simp only [List.head?_cons, Option.some_inj] at h
        rw [← h]
        exact Bool.not_eq_true _ ▸ Bool.of_not_eq_true ha

/-- Soundness of `extract_item_id`: a returned id is a nonempty maximal
digit run directly following an occurrence of the `/itm/` marker. -/
lemma extract_item_id_sound : ∀ (s d : Str), extract_item_id s = some d →
    d ≠ [] ∧ (∀ c ∈ d, c.isDigit = true) ∧
      ∃ pre suf, s = pre ++ marker ++ d ++ suf ∧
        ∀ c, suf.head? = some c → c.isDigit = false := by
  intro s
  induction s with
  | nil => intro d h; simp [extract_item_id] at h
  | cons a cs ih =>
      intro d h
      by_cases hc : marker <+: (a :: cs) ∧ digitsOf (List.drop 5 (a :: cs)) ≠ []
      · rw [extract_item_id_pos _ hc] at h
        obtain ⟨⟨t, ht⟩, hne⟩ := hc
        have hdrop : List.drop 5 (a :: cs) = t := by
          rw [← ht]
          exact List.drop_left' marker_length
        injection h with h
        subst h
        rw [hdrop] at hne ⊢
        refine ⟨hne, fun c hc => List.mem_takeWhile_imp hc, [],
          t.dropWhile (fun c => c.isDigit), ?_, ?_⟩
        · rw [List.nil_append, ← ht]
          have : digitsOf t ++ t.dropWhile (fun c => c.isDigit) = t :=
            List.takeWhile_append_dropWhile _ t
          rw [List.append_assoc, this]
        · exact head?_dropWhile_neg _ t
      · rw [extract_item_id_neg a cs hc] at h
        obtain ⟨hne, hdig, pre, suf, hs, hsuf⟩ := ih d h
        exact ⟨hne, hdig, a :: pre, suf, by rw [hs]; rfl, hsuf⟩

/-- Completeness of `extract_item_id`: if the URL contains the marker
followed by a nonempty digit segment, some id is returned. -/
lemma extract_item_id_complete : ∀ (pre ds suf : Str), ds ≠ [] →
    (∀ c ∈ ds, c.isDigit = true) →
    (extract_item_id (pre ++ marker ++ ds ++ suf)).isSome = true := by
  intro pre
  induction pre with
  | nil =>
      intro ds suf hne hdig
      cases ds with
      | nil => exact absurd rfl hne
      | cons d0 ds' =>
          have hd0 : d0.isDigit = true := hdig d0 (by simp)
          have hcond : marker <+: (marker ++ ((d0 :: ds') ++ suf)) ∧
              digitsOf (List.drop 5 (marker ++ ((d0 :: ds') ++ suf))) ≠ [] := by
            constructor
            · exact ⟨(d0 :: ds') ++ suf, rfl⟩
            · rw [List.drop_left' marker_length]
              simp only [digitsOf, List.cons_append, List.takeWhile_cons_of_pos hd0]
              exact List.cons_ne_nil _ _
          have hpos := extract_item_id_pos _ hcond
          simp only [List.nil_append, List.append_assoc]
          rw [hpos]
          rfl
  | cons p pre' ih =>
      intro ds suf hne hdig
      by_cases hc : marker <+: (p :: (pre' ++ marker ++ ds ++ suf)) ∧
          digitsOf (List.drop 5 (p :: (pre' ++ marker ++ ds ++ suf))) ≠ []
      · have := extract_item_id_pos _ hc
        have hshape : (p :: pre') ++ marker ++ ds ++ suf =
            p :: (pre' ++ marker ++ ds ++ suf) := by simp
        rw [hshape, this]
        rfl
      · have hshape : (p :: pre') ++ marker ++ ds ++ suf =
            p :: (pre' ++ marker ++ ds ++ suf) := by simp
        rw [hshape, extract_item_id_neg _ _ hc]
        exact ih ds suf hne hdig

/-- An id returned by `extract_item_id` is never the empty string. -/
lemma extract_item_id_ne_nil (s d : Str) (h : extract_item_id s = some d) : d ≠ [] :=
  (extract_item_id_sound s d h).1

lemma jsonCount_cons (p : Str × Str) (t : FS) :
    jsonCount (p :: t) = (if str ".json" <:+ p.1 then 1 else 0) + jsonCount t := by
  by_cases h : str ".json" <:+ p.1
  · simp [jsonCount, List.filter_cons, h]
    omega
  · simp [jsonCount, List.filter_cons, h]

/-- Replacing the content under an existing key preserves the key list. -/
lemma map_fst_replace (fs : FS) (n c : Str) :
    (fs.map (fun p => if p.1 = n then (n, c) else p)).map Prod.fst = fs.map Prod.fst := by
  induction fs with
  | nil => rfl
  | cons p t ih =>
      simp only [List.map_cons, ih]
      by_cases hp : p.1 = n
      · rw [if_pos hp]; simp [hp]
      · rw [if_neg hp]

/-- A write never decreases the `.json` file count of the directory. -/
lemma jsonCount_fsWrite_ge (fs : FS) (n c : Str) :
    jsonCount fs ≤ jsonCount (fsWrite fs n c) := by
  unfold fsWrite
  by_cases h : fs.any (fun p => decide (p.1 = n))
  · rw [if_pos h]
    have key : ∀ fs' : FS,
        jsonCount (fs'.map (fun p => if p.1 = n then (n, c) else p)) = jsonCount fs' := by
      intro fs'
      induction fs' with
      | nil => rfl
      | cons p t ih =>
          by_cases hp : p.1 = n
          · subst hp
            simp [jsonCount_cons, ih]
          · simp only [List.map_cons, if_neg hp, jsonCount_cons, ih]
    rw [key]
  · rw [if_neg h]
    simp only [jsonCount, List.filter_append, List.length_append]
    omega

lemma jsonCount_write_le (fs : FS) (id : Str) (r : ListingRecord) :
    jsonCount fs ≤ jsonCount (write_json_file fs id r).1 :=
  jsonCount_fsWrite_ge fs _ _

/-- The per-page write fan-out never decreases the `.json` file count. -/
lemma jsonCount_foldl_savePair (tasks : List (Str × ListingRecord)) :
    ∀ (fs : FS) (log : List LogEvent),
      jsonCount fs ≤ jsonCount (tasks.foldl savePair (fs, log)).1 := by
  induction tasks with
  | nil => intro fs log; exact le_refl _
  | cons t ts ih =>
      intro fs log
      simp only [List.foldl_cons, savePair]
      exact le_trans (jsonCount_write_le fs t.1 t.2) (ih _ _)

/-- Processing a page never decreases the `.json` file count. -/
lemma jsonCount_process_page (env : Env) (fs : FS) (u : Str) (cf : Option Str) :
    jsonCount fs ≤ jsonCount (process_page env fs u cf).1 := by
  unfold process_page
  cases h : env.fetch u with
  | none => exact le_refl _
  | some soup => exact jsonCount_foldl_savePair _ fs []

/-- After a write the directory always holds the written key. -/
lemma any_key_fsWrite (fs : FS) (n c : Str) :
    (fsWrite fs n c).any (fun p => decide (p.1 = n)) = true := by
  unfold fsWrite
  by_cases ha : fs.any (fun p => decide (p.1 = n))
  · rw [if_pos ha]
    obtain ⟨p, hp, hpe⟩ := List.any_eq_true.mp ha
    refine List.any_eq_true.mpr ⟨(n, c), ?_, by simp⟩
    refine List.mem_map.mpr ⟨p, hp, ?_⟩
    rw [if_pos (of_decide_eq_true hpe)]
  · rw [if_neg ha]
    exact List.any_eq_true.mpr ⟨(n, c), by simp, by simp⟩

/-- A write preserves distinctness of the directory's filenames. -/
lemma nodup_keys_fsWrite (fs : FS) (n c : Str) (h : (fs.map Prod.fst).Nodup) :
    ((fsWrite fs n c).map Prod.fst).Nodup := by
  unfold fsWrite
  by_cases ha : fs.any (fun p => decide (p.1 = n))
  · rw [if_pos ha, map_fst_replace]
    exact h
  · rw [if_neg ha]
    have hnot : n ∉ fs.map Prod.fst := by
      intro hmem
      obtain ⟨p, hp, hpn⟩ := List.mem_map.mp hmem
      exact (List.any_eq_false.mp (Bool.of_not_eq_true ha) p hp) (by simp [hpn])
    simp only [List.map_append, List.map_cons, List.map_nil]
    exact List.nodup_append.mpr ⟨h, List.nodup_singleton n,
      by intro a haa hb; simp at hb; exact hnot (hb ▸ haa)⟩

/-- In a directory with distinct filenames holding the key, replacing the
key's content leaves exactly that one entry under the key. -/
lemma filter_key_replace : ∀ (fs : FS) (n c : Str),
    (fs.map Prod.fst).Nodup →
    fs.any (fun p => decide (p.1 = n)) = true →
    (fs.map (fun p => if p.1 = n then (n, c) else p)).filter
        (fun p => decide (p.1 = n)) = [(n, c)] := by
  intro fs
  induction fs with
  | nil => intro n c _ ha; simp at ha
  | cons p t ih =>
      intro n c hnodup ha
      by_cases hp : p.1 = n
      · simp only [List.map_cons, if_pos hp, List.filter_cons]
        simp only [decide_eq_true_eq]
        simp only [if_true]
        have hnot : ∀ q ∈ t, q.1 ≠ n := by
          intro q hq hqn
          exact (List.nodup_cons.mp hnodup).1
            (hp ▸ hqn ▸ List.mem_map_of_mem Prod.fst hq)
        have hnil : (t.map (fun p => if p.1 = n then (n, c) else p)).filter
            (fun p => decide (p.1 = n)) = [] := by
          apply List.filter_eq_nil_iff.mpr
          intro q hq
          obtain ⟨q0, hq0, rfl⟩ := List.mem_map.mp hq
          rw [if_neg (hnot q0 hq0)]
          simp [hnot q0 hq0]
        rw [hnil]
      · simp only [List.map_cons, if_neg hp, List.filter_cons]
        simp only [decide_eq_true_eq]
        rw [if_neg hp]
        have ha' : t.any (fun p => decide (p.1 = n)) = true := by
          rw [List.any_cons] at ha
          simpa [hp] using ha
        exact ih n c (List.nodup_cons.mp hnodup).2 ha'

/-- Unfolding a write whose key is already present. -/
lemma fsWrite_of_any (fs : FS) (n c : Str)
    (h : fs.any (fun p => decide (p.1 = n)) = true) :
    fsWrite fs n c = fs.map (fun p => if p.1 = n then (n, c) else p) := by
  unfold fsWrite
  rw [if_pos h]

/-- Writing the same key twice leaves exactly one entry under the key,
holding the second write's content. -/
lemma fsWrite_twice_filter (fs : FS) (n c1 c2 : Str) (h : (fs.map Prod.fst).Nodup) :
    (fsWrite (fsWrite fs n c1) n c2).filter (fun p => decide (p.1 = n)) = [(n, c2)] := by
  have h1 : ((fsWrite fs n c1).map Prod.fst).Nodup := nodup_keys_fsWrite fs n c1 h
  have h2 : (fsWrite fs n c1).any (fun p => decide (p.1 = n)) = true :=
    any_key_fsWrite fs n c1
  rw [fsWrite_of_any _ _ c2 h2]
  exact filter_key_replace (fsWrite fs n c1) n c2 h1 h2

lemma crawlLoop_none_eq (env : Env) (cf : Option Str) (fuel : Nat) (fs : FS)
    (pc ic : Nat) (log : List LogEvent) :
    crawlLoop env cf fuel none fs pc ic log =
      some ⟨pc, ic, fs, log ++ [LogEvent.crawlCompleted pc ic]⟩ := by
  cases fuel <;> rfl

lemma crawlLoop_zero_eq (env : Env) (cf : Option Str) (u : Str) (fs : FS)
    (pc ic : Nat) (log : List LogEvent) :
    crawlLoop env cf 0 (some u) fs pc ic log = none := rfl

lemma crawlLoop_succ_eq (env : Env) (cf : Option Str) (fuel : Nat) (u : Str) (fs : FS)
    (pc ic : Nat) (log : List LogEvent) :
    crawlLoop env cf (fuel + 1) (some u) fs pc ic log =
      crawlLoop env cf fuel (process_page env fs u cf).2.1 (process_page env fs u cf).1
        (pc + 1) (jsonCount (process_page env fs u cf).1)
        (log ++ [LogEvent.processingPageNum (pc + 1)] ++ (process_page env fs u cf).2.2
          ++ [LogEvent.extractedNew
                (jsonCount (process_page env fs u cf).1 - ic) (pc + 1)]) := rfl

lemma sumDeltas_append (a b : List LogEvent) :
    sumDeltas (a ++ b) = sumDeltas a + sumDeltas b := by
  simp [sumDeltas, List.filterMap_append]

lemma sumDeltas_ppn (n : Nat) : sumDeltas [LogEvent.processingPageNum n] = 0 := by
  simp [sumDeltas, deltaOf]

lemma sumDeltas_extractedNew (n p : Nat) :
    sumDeltas [LogEvent.extractedNew n p] = n := by
  simp [sumDeltas, deltaOf]

lemma sumDeltas_completed (p i : Nat) :
    sumDeltas [LogEvent.crawlCompleted p i] = 0 := by
  simp [sumDeltas, deltaOf]

/-- `parse_item` emits no page-delta event. -/
lemma deltaOf_parse_item (it : ItemNode) (cf : Option Str) (e : LogEvent)
    (h : e ∈ (parse_item it cf).2) : deltaOf e = none := by
  rcases it with ⟨te, pe, lh, ce⟩
  cases lh with
  | none => simp [parse_item] at h
  | some u =>
      by_cases hu : u = []
      · simp [parse_item, hu] at h
      · by_cases hf : filterRejects cf (itemCondition ⟨te, pe, some u, ce⟩)
        · simp [parse_item, hu, hf] at h
          subst h; rfl
        · cases hex : extract_item_id u with
          | none =>
              simp [parse_item, hu, hf, hex] at h
              subst h; rfl
          | some d =>
              by_cases hd : d = []
              · simp [parse_item, hu, hf, hex, hd] at h
                subst h; rfl
              · simp [parse_item, hu, hf, hex, hd] at h
                subst h; rfl

/-- Every event accumulated by the write fan-out is either inherited or a
`savedItem` debug event. -/
lemma foldl_savePair_log (tasks : List (Str × ListingRecord)) :
    ∀ (fs : FS) (log : List LogEvent) (e : LogEvent),
      e ∈ (tasks.foldl savePair (fs, log)).2 →
        e ∈ log ∨ ∃ id, e = LogEvent.savedItem id := by
  induction tasks with
  | nil => intro fs log e h; exact Or.inl h
  | cons t ts ih =>
      intro fs log e h
      simp only [List.foldl_cons, savePair, write_json_file] at h
      rcases ih _ _ e h with h' | h'
      · rcases List.mem_append.mp h' with h'' | h''
        · exact Or.inl h''
        · simp at h''
          exact Or.inr ⟨t.1, h''⟩
      · exact Or.inr h'

/-- `process_page` emits no page-delta event (those come from the crawl
loop itself). -/
lemma deltaOf_process_page (env : Env) (fs : FS) (u : Str) (cf : Option Str)
    (e : LogEvent) (h : e ∈ (process_page env fs u cf).2.2) : deltaOf e = none := by
  cases hf : env.fetch u with
  | none =>
      simp [process_page, hf] at h
      rcases h with rfl | rfl <;> rfl
  | some soup =>
      simp only [process_page, hf, List.mem_append] at h
      rcases h with ((((h | h) | h) | h) | h)
      · simp at h
        rcases h with rfl | rfl <;> rfl
      · rw [List.mem_flatten] at h
        obtain ⟨l, hl, hel⟩ := h
        obtain ⟨pr, hpr, rfl⟩ := List.mem_map.mp hl
        obtain ⟨it, _, rfl⟩ := List.mem_map.mp hpr
        exact deltaOf_parse_item it cf e hel
      · split at h
        · simp at h
        · simp at h
          subst h; rfl
      · rcases foldl_savePair_log _ fs [] e h with h' | ⟨id, rfl⟩
        · simp at h'
        · rfl
      · split at h <;> (simp at h; subst h; rfl)

lemma sumDeltas_process_page (env : Env) (fs : FS) (u : Str) (cf : Option Str) :
    sumDeltas (process_page env fs u cf).2.2 = 0 := by
  unfold sumDeltas
  rw [List.filterMap_eq_nil_iff.mpr (fun e he => deltaOf_process_page env fs u cf e he)]
  rfl

/-- Loop invariant of `crawl`'s `while` loop: on successful return the
reported item count is the re-enumerated `.json` count of the final
directory, the directory's count never shrinks, and the per-page deltas
added to the log sum to the growth of the reported count. -/
lemma crawlLoop_inv (env : Env) (cf : Option Str) :
    ∀ (fuel : Nat) (u : Str) (fs : FS) (pc ic : Nat) (log : List LogEvent)
      (res : CrawlResult),
      crawlLoop env cf fuel (some u) fs pc ic log = some res →
      ic ≤ jsonCount fs →
      res.items = jsonCount res.fs ∧ jsonCount fs ≤ jsonCount res.fs ∧
        sumDeltas res.log = sumDeltas log + (res.items - ic) := by
  intro fuel
  induction fuel with
  | zero =>
      intro u fs pc ic log res h _
      rw [crawlLoop_zero_eq] at h
      exact Option.noConfusion h
  | succ n ih =>
      intro u fs pc ic log res h hic
      rw [crawlLoop_succ_eq] at h
      have hmono : jsonCount fs ≤ jsonCount (process_page env fs u cf).1 :=
        jsonCount_process_page env fs u cf
      cases hnext : (process_page env fs u cf).2.1 with
      | none =>
          rw [hnext, crawlLoop_none_eq] at h
          injection h with h
          subst h
          refine ⟨rfl, hmono, ?_⟩
          simp only [sumDeltas_append, sumDeltas_ppn, sumDeltas_extractedNew,
            sumDeltas_completed, sumDeltas_process_page]
          omega
      | some u2 =>
          rw [hnext] at h
          obtain ⟨h1, h2, h3⟩ := ih u2 _ (pc + 1) _ _ res h (le_refl _)
          refine ⟨h1, le_trans hmono h2, ?_⟩
          rw [h3]
          simp only [sumDeltas_append, sumDeltas_ppn, sumDeltas_extractedNew,
            sumDeltas_completed, sumDeltas_process_page]
          have hle : jsonCount (process_page env fs u cf).1 ≤ res.items := h1 ▸ h2
          omega

/-- Running the loop over a finite pagination chain processes exactly the
chain's pages and terminates. -/
lemma crawlLoop_chain (env : Env) (cf : Option Str) :
    ∀ (urls : List Str) (fuel : Nat) (fs : FS) (pc ic : Nat) (log : List LogEvent),
      ChainFrom env urls → urls.length ≤ fuel →
      ∃ res, crawlLoop env cf fuel urls.head? fs pc ic log = some res ∧
        res.pages = pc + urls.length := by
  intro urls
  induction urls with
  | nil =>
      intro fuel fs pc ic log _ _
      exact ⟨_, crawlLoop_none_eq env cf fuel fs pc ic log, by simp⟩
  | cons u rest ih =>
      intro fuel fs pc ic log hchain hfuel
      obtain ⟨doc, hfetch, hnext, hrest⟩ := hchain
      cases fuel with
      | zero => exact absurd hfuel (by simp [List.length_cons])
      | succ n =>
          have hlen : rest.length ≤ n := by
            simp only [List.length_cons] at hfuel
            omega
          have hpp : (process_page env fs u cf).2.1 = rest.head? := by
            simp only [process_page, hfetch]
            exact hnext
          rw [List.head?_cons, crawlLoop_succ_eq, hpp]
          obtain ⟨res, hres, hpages⟩ := ih n _ (pc + 1) _ _ hrest hlen
          refine ⟨res, hres, ?_⟩
          rw [hpages]
          simp only [List.length_cons]
          omega

/-- The filter passes exactly when it is absent, empty (falsy), or
case-insensitively equal to the condition. -/
lemma filterRejects_eq_false_iff (cf : Option Str) (cond : Str) :
    filterRejects cf cond = false ↔
      (cf = none ∨ cf = some [] ∨ ∃ f, cf = some f ∧ strLower cond = strLower f) := by
  cases cf with
  | none => simp [filterRejects]
  | some f =>
      by_cases hf : f = []
      · subst hf
        simp [filterRejects]
      · simp only [filterRejects, if_neg hf]
        constructor
        · intro h
          refine Or.inr (Or.inr ⟨f, rfl, ?_⟩)
          simpa using h
        · rintro (h | h | ⟨f', hf', heq⟩)
          · exact absurd h (by simp)
          · injection h with h
            exact absurd h hf
          · injection hf' with hf'
            subst hf'
            simp [heq]

/-- A listing whose URL yields no item id is dropped. -/
lemma parse_item_none_of_id_none (item : ItemNode) (cf : Option Str) (u : Str)
    (hu : item.linkHref = some u) (hid : extract_item_id u = none) :
    (parse_item item cf).1 = none := by
  by_cases hne : u = []
  · simp [parse_item, hu, hne]
  · by_cases hfr : filterRejects cf (itemCondition item) <;>
      simp [parse_item, hu, hne, hid, hfr]

/-- For a listing with a truthy URL and a derivable id, success is
equivalent to passing the filter. -/
lemma parse_item_some_iff (item : ItemNode) (cf : Option Str) (u d : Str)
    (hu : item.linkHref = some u) (hne : u ≠ []) (hid : extract_item_id u = some d) :
    (parse_item item cf).1.isSome = true ↔
      filterRejects cf (itemCondition item) = false := by
  have hd : d ≠ [] := extract_item_id_ne_nil u d hid
  by_cases hfr : filterRejects cf (itemCondition item) <;>
    simp [parse_item, hu, hne, hid, hd, hfr]

/-- The record produced on success, field by field. -/
lemma parse_item_success (item : ItemNode) (cf : Option Str) (u d : Str)
    (hu : item.linkHref = some u) (hne : u ≠ []) (hid : extract_item_id u = some d)
    (hfr : filterRejects cf (itemCondition item) = false) :
    (parse_item item cf).1 =
      some ⟨itemTitle item, itemCondition item, itemPrice item, u⟩ := by
  have hd : d ≠ [] := extract_item_id_ne_nil u d hid
  simp [parse_item, hu, hne, hid, hd, hfr]

lemma beforeTo_pos (c : Char) (cs : Str) (h : sepTo <+: (c :: cs)) :
    beforeTo (c :: cs) = [] := by
  show (if sepTo <+: (c :: cs) then [] else c :: beforeTo cs) = []
  rw [if_pos h]

lemma beforeTo_neg (c : Char) (cs : Str) (h : ¬ sepTo <+: (c :: cs)) :
    beforeTo (c :: cs) = c :: beforeTo cs := by
  show (if sepTo <+: (c :: cs) then [] else c :: beforeTo cs) = _
  rw [if_neg h]

/-- `beforeTo p` is a prefix of `p`, and what follows is empty or starts
with the separator. -/
lemma beforeTo_decomp : ∀ p : Str, ∃ rest, p = beforeTo p ++ rest ∧
    (rest = [] ∨ sepTo <+: rest) := by
  intro p
  induction p with
  | nil => exact ⟨[], rfl, Or.inl rfl⟩
  | cons c cs ih =>
      by_cases h : sepTo <+: (c :: cs)
      · exact ⟨c :: cs, by rw [beforeTo_pos c cs h, List.nil_append], Or.inr h⟩
      · obtain ⟨rest, hr, hor⟩ := ih
        refine ⟨rest, ?_, hor⟩
        rw [beforeTo_neg c cs h, List.cons_append, ← hr]

/-- `beforeTo p` is the segment before the FIRST separator: it is a
prefix of the text before any occurrence of the separator. -/
lemma beforeTo_min : ∀ (p a rest : Str), p = a ++ rest → sepTo <+: rest →
    beforeTo p <+: a := by
  intro p
  induction p with
  | nil => intro a rest _ _; exact List.nil_prefix
  | cons c cs ih =>
      intro a rest h hsep
      by_cases hc : sepTo <+: (c :: cs)
      · rw [beforeTo_pos c cs hc]
        exact List.nil_prefix
      · rw [beforeTo_neg c cs hc]
        cases a with
        | nil =>
            exfalso
            apply hc
            rw [List.nil_append] at h
            rw [h]
            exact hsep
        | cons a0 a' =>
            injection h with h1 h2
            subst h1
            exact List.cons_prefix_cons.mpr ⟨rfl, ih a' rest h2 hsep⟩

/-- Every character of a normalized price is a digit or a dot. -/
lemma itemPrice_chars (item : ItemNode) (c : Char) (h : c ∈ itemPrice item) :
    c.isDigit = true ∨ c = '.' := by
  simp only [itemPrice] at h
  have h2 := (List.mem_filter.mp h).2
  simpa [priceChar] using h2

/-- Shared halt computation: when the fetch of the current page fails,
the loop performs exactly this one iteration and returns; the directory
is untouched and no further page is fetched. -/
lemma crawlLoop_fetch_fail (env : Env) (cf : Option Str) (fuel : Nat) (u : Str)
    (fs : FS) (pc ic : Nat) (log : List LogEvent) (h : env.fetch u = none) :
    crawlLoop env cf (fuel + 1) (some u) fs pc ic log =
      some ⟨pc + 1, jsonCount fs, fs,
        log ++ [LogEvent.processingPageNum (pc + 1)]
          ++ [LogEvent.processingPage u, LogEvent.fetchFailed u]
          ++ [LogEvent.extractedNew (jsonCount fs - ic) (pc + 1)]
          ++ [LogEvent.crawlCompleted (pc + 1) (jsonCount fs)]⟩ := by
  have hpp : process_page env fs u cf =
      (fs, none, [LogEvent.processingPage u, LogEvent.fetchFailed u]) := by
    simp [process_page, h]
  rw [crawlLoop_succ_eq, hpp]
  dsimp only
  rw [crawlLoop_none_eq]

/-- C1 counterexample: with the filter set to the empty string, a listing
whose condition (`Unknown`) does not case-insensitively equal the filter
is nevertheless returned, because `if condition_filter and ...` treats an
empty filter string as falsy; the claim's biconditional "appears iff F is
unset or condition equals F" fails at F = the empty string. -/
theorem C1_counterexample :
    (parse_item itemBare (some ([] : Str))).1.isSome = true ∧
      some ([] : Str) ≠ (none : Option Str) ∧
      strLower (itemCondition itemBare) ≠ strLower ([] : Str) :=
  ⟨by decide, by decide, by decide⟩

/-- C1 (amended): for every listing node with a resolvable (truthy)
product URL and a derivable item id, the parsed record appears in the
extractor's output if and only if the condition filter is unset or the
empty string (both falsy in Python), or the node's condition
case-insensitively equals the filter value. -/
theorem C1_filter_correctness (item : ItemNode) (cf : Option Str) (u d : Str)
    (hu : item.linkHref = some u) (hne : u ≠ []) (hid : extract_item_id u = some d) :
    (parse_item item cf).1.isSome = true ↔
      (cf = none ∨ cf = some [] ∨
        ∃ f, cf = some f ∧ strLower (itemCondition item) = strLower f) := by
  rw [parse_item_some_iff item cf u d hu hne hid]
  exact filterRejects_eq_false_iff cf (itemCondition item)

/-- C1 witness: a `New`-condition listing against the filter `new`. -/
theorem C1_witness :
    ((parse_item itemNew (some (str "new"))).1.isSome = true ↔
      (some (str "new") = none ∨ some (str "new") = some ([] : Str) ∨
        ∃ f, some (str "new") = some f ∧
          strLower (itemCondition itemNew) = strLower f)) :=
  C1_filter_correctness itemNew (some (str "new"))
    (str "https://www.ebay.com/itm/9") (str "9") (by decide) (by decide) (by decide)

/-- C2: identifier determinism: (i) every URL containing a nonempty digit
segment directly after the `/itm/` marker yields some id; (ii) any
returned id is a nonempty maximal digit run directly following the marker
in the URL (hence a URL lacking such a segment returns none); (iii) a
listing whose product URL yields no id is dropped and never persisted. -/
theorem C2_identifier_determinism (s : Str) :
    ((∃ pre ds suf : Str, s = pre ++ marker ++ ds ++ suf ∧ ds ≠ [] ∧
        ∀ c ∈ ds, c.isDigit = true) → (extract_item_id s).isSome = true) ∧
    (∀ d, extract_item_id s = some d →
      d ≠ [] ∧ (∀ c ∈ d, c.isDigit = true) ∧
        ∃ pre suf, s = pre ++ marker ++ d ++ suf ∧
          ∀ c, suf.head? = some c → c.isDigit = false) ∧
    (∀ (item : ItemNode) (cf : Option Str), item.linkHref = some s →
      extract_item_id s = none → (parse_item item cf).1 = none) := by
  refine ⟨?_, ?_, ?_⟩
  · rintro ⟨pre, ds, suf, rfl, hne, hdig⟩
    exact extract_item_id_complete pre ds suf hne hdig
  · intro d h
    exact extract_item_id_sound s d h
  · intro item cf hu hid
    exact parse_item_none_of_id_none item cf s hu hid

/-- C2 witness: a concrete URL yields an id; a concrete listing with an
id-less URL is dropped. -/
theorem C2_witness :
    (extract_item_id (str "https://www.ebay.com/itm/334756789012?h=1")).isSome = true ∧
    (parse_item ⟨none, none, some (str "https://www.ebay.com/x"), none⟩ none).1 =
      none := by
  constructor
  · exact (C2_identifier_determinism (str "https://www.ebay.com/itm/334756789012?h=1")).1
      ⟨str "https://www.ebay.com", str "334756789012", str "?h=1", by decide, by decide,
        by decide⟩
  · exact (C2_identifier_determinism (str "https://www.ebay.com/x")).2.2
      ⟨none, none, some (str "https://www.ebay.com/x"), none⟩ none rfl (by decide)

/-- C3 counterexample: the normalized result of the price text `$5.1.2`
is `5.1.2`, which contains two decimal points: the claim's "the result
retains only digits and a single decimal point" fails, because
`re.sub(r'[^\d.]', '', ...)` keeps every dot. -/
theorem C3_counterexample :
    itemPrice ⟨none, some (str "$5.1.2"), none, none⟩ = str "5.1.2" ∧
      ((itemPrice ⟨none, some (str "$5.1.2"), none, none⟩).filter
        (fun c => decide (c = '.'))).length ≠ 1 :=
  ⟨by decide, by decide⟩

/-- C3 (amended): price normalization strips every character except
digits and `.`, keeping only the segment before the first literal
`' to '` separator; the result consists of digits and dots (possibly
more than one dot); concretely `$1,234.56 to $1,999.00` normalizes to
`1234.56`, `$49.99` to `49.99`, and a missing price element yields
`0.00`. -/
theorem C3_price_normalization :
    (∀ (item : ItemNode), ∀ c ∈ itemPrice item, c.isDigit = true ∨ c = '.') ∧
    (∀ p : Str, ∃ rest, p = beforeTo p ++ rest ∧ (rest = [] ∨ sepTo <+: rest)) ∧
    (∀ p a rest : Str, p = a ++ rest → sepTo <+: rest → beforeTo p <+: a) ∧
    itemPrice ⟨none, some (str "$1,234.56 to $1,999.00"), none, none⟩ = str "1234.56" ∧
    itemPrice ⟨none, some (str "$49.99"), none, none⟩ = str "49.99" ∧
    itemPrice ⟨none, none, none, none⟩ = str "0.00" :=
  ⟨fun item c hc => itemPrice_chars item c hc, beforeTo_decomp, beforeTo_min,
    by decide, by decide, by decide⟩

/-- C3 witness: the first-separator minimality at a concrete range price. -/
theorem C3_witness : beforeTo (str "$1 to $2") <+: str "$1" :=
  C3_price_normalization.2.2.1 (str "$1 to $2") (str "$1") (str " to $2")
    (by decide) (by decide)

/-- C4: a transport failure on the current page is fatal to the whole
crawl: the failure leaves `process_page` (which yields no next URL), so
the loop performs exactly this one iteration and ends; no further page
is fetched, no write happens, and the failure is logged at error level
with the offending URL. -/
theorem C4_fetch_failure_fatal (env : Env) (cf : Option Str) (fuel : Nat) (u : Str)
    (fs : FS) (pc ic : Nat) (log : List LogEvent) (h : env.fetch u = none) :
    (process_page env fs u cf).2.1 = none ∧
    crawlLoop env cf (fuel + 1) (some u) fs pc ic log =
      some ⟨pc + 1, jsonCount fs, fs,
        log ++ [LogEvent.processingPageNum (pc + 1)]
          ++ [LogEvent.processingPage u, LogEvent.fetchFailed u]
          ++ [LogEvent.extractedNew (jsonCount fs - ic) (pc + 1)]
          ++ [LogEvent.crawlCompleted (pc + 1) (jsonCount fs)]⟩ :=
  ⟨by simp [process_page, h], crawlLoop_fetch_fail env cf fuel u fs pc ic log h⟩

/-- C4 witness: a failing transport halts a fresh crawl after one page. -/
theorem C4_witness :
    (process_page envFail [] (str "u") none).2.1 = none ∧
    crawlLoop envFail none 3 (some (str "u")) [] 0 0 [] =
      some ⟨1, 0, [],
        [LogEvent.processingPageNum 1, LogEvent.processingPage (str "u"),
         LogEvent.fetchFailed (str "u"), LogEvent.extractedNew 0 1,
         LogEvent.crawlCompleted 1 0]⟩ :=
  C4_fetch_failure_fatal envFail none 2 (str "u") [] 0 0 [] rfl

/-- C5: progress accounting: a returning crawl reports an item count
equal to the re-enumerated `.json` file count of the final directory
(not an in-memory sum), this count never undercounts the pre-existing
directory (externally-caused state is reconciled into the total), and
the per-page logged deltas sum exactly to the final reported count, so
each page is attributed the growth since the previous page's count. -/
theorem C5_progress_accounting (env : Env) (cf : Option Str) (fuel : Nat)
    (fs0 : FS) (res : CrawlResult) (h : crawl env cf fuel fs0 = some res) :
    res.items = jsonCount res.fs ∧ jsonCount fs0 ≤ res.items ∧
      sumDeltas res.log = res.items := by
  unfold crawl at h
  cases fuel with
  | zero =>
      rw [crawlLoop_zero_eq] at h
      exact Option.noConfusion h
  | succ n =>
      obtain ⟨h1, h2, h3⟩ := crawlLoop_inv env cf (n + 1) (baseUrl env) fs0 0 0
        [LogEvent.startCrawl env.storeName] res h (Nat.zero_le _)
      refine ⟨h1, ?_, ?_⟩
      · rw [h1]
        exact h2
      · rw [h3]
        simp [sumDeltas, deltaOf]

/-- C5 witness: a crawl over one empty page with a pre-populated data
directory (two record files and one unrelated file) reports 2 items: the
directory's `.json` count, including the pre-existing records. -/
theorem C5_witness :
    ∃ res, crawl envP none 2 fsPre = some res ∧
      (res.items = jsonCount res.fs ∧ jsonCount fsPre ≤ res.items ∧
        sumDeltas res.log = res.items) :=
  ⟨⟨1, 2, fsPre,
     [LogEvent.startCrawl (str "s"), LogEvent.processingPageNum 1,
      LogEvent.processingPage (baseUrl envP), LogEvent.foundItems 0,
      LogEvent.noMorePages, LogEvent.extractedNew 2 1, LogEvent.crawlCompleted 1 2]⟩,
   by decide, C5_progress_accounting envP none 2 fsPre _ (by decide)⟩

/-- C6 counterexample: on a page with five listing nodes of which two
lack a product URL, the code persists 3 records but emits 0 warning
diagnostics, not 2: the missing-URL discard at source lines 85-86 has no
logging call. -/
theorem C6_counterexample :
    jsonCount (process_page env6 [] (str "p") none).1 = 3 ∧
    ((process_page env6 [] (str "p") none).2.2.filter
      (fun e => decide (e.level = LogLevel.warning))).length ≠ 2 :=
  ⟨by decide, by decide⟩

/-- C6 (amended): a listing node lacking a resolvable product URL (no
link anchor, or a falsy empty href) is discarded before an identifier is
even attempted, and the discard is silent: no record and no diagnostic
event at all; on the five-node page with two such nodes, exactly 3
records are persisted and 0 warning diagnostics are emitted. -/
theorem C6_silent_url_discard (item : ItemNode) (cf : Option Str)
    (h : item.linkHref = none ∨ item.linkHref = some []) :
    parse_item item cf = (none, []) ∧
    jsonCount (process_page env6 [] (str "p") none).1 = 3 ∧
    ((process_page env6 [] (str "p") none).2.2.filter
      (fun e => decide (e.level = LogLevel.warning))).length = 0 := by
  refine ⟨?_, by decide, by decide⟩
  rcases h with h | h <;> simp [parse_item, h]

/-- C6 witness: the no-link node of the five-node page. -/
theorem C6_witness :
    parse_item itemNoLink none = (none, []) ∧
    jsonCount (process_page env6 [] (str "p") none).1 = 3 ∧
    ((process_page env6 [] (str "p") none).2.2.filter
      (fun e => decide (e.level = LogLevel.warning))).length = 0 :=
  C6_silent_url_discard itemNoLink none (Or.inl (by decide))

/-- C7: for every finite pagination chain starting at the storefront's
base URL, the crawl terminates exactly when the page with no next link
has been processed, and pages_processed equals the chain's length;
intermediate pages yielding zero valid records advance normally. -/
theorem C7_termination (env : Env) (cf : Option Str) (urls : List Str) (fuel : Nat)
    (fs : FS) (hhead : urls.head? = some (baseUrl env))
    (hchain : ChainFrom env urls) (hfuel : urls.length ≤ fuel) :
    ∃ res, crawl env cf fuel fs = some res ∧ res.pages = urls.length := by
  unfold crawl
  obtain ⟨res, h, hp⟩ := crawlLoop_chain env cf urls fuel fs 0 0
    [LogEvent.startCrawl env.storeName] hchain hfuel
  rw [hhead] at h
  exact ⟨res, h, by rw [hp]; omega⟩

/-- C7 witness: the synthetic three-page chain 1→2→3→none, where page 2
yields zero valid records under filter `New`, gives pages_processed = 3. -/
theorem C7_witness :
    ∃ res, crawl env3 (some (str "New")) 5 [] = some res ∧ res.pages = 3 :=
  C7_termination env3 (some (str "New"))
    [baseUrl env3, str "u2", str "u3"] 5 [] rfl
    ⟨⟨[itemNew], some (str "u2")⟩, by decide, by decide,
     ⟨[itemUsed], some (str "u3")⟩, by decide, by decide,
     ⟨[], none⟩, by decide, by decide, trivial⟩
    (by decide)

/-- C8: idempotent persistence: writing the same item id twice leaves
exactly one file under the key `item_id.json`, and its content is the
second write's serialized record (last-writer-wins at file granularity),
given distinct filenames in the directory (as on a real filesystem). -/
theorem C8_idempotent_persistence (fs : FS) (item_id : Str) (r1 r2 : ListingRecord)
    (h : (fs.map Prod.fst).Nodup) :
    (write_json_file (write_json_file fs item_id r1).1 item_id r2).1.filter
      (fun p => decide (p.1 = item_id ++ str ".json")) =
      [(item_id ++ str ".json", jsonDumps r2)] :=
  fsWrite_twice_filter fs (item_id ++ str ".json") (jsonDumps r1) (jsonDumps r2) h

/-- C8 witness: two different records under id `7` in an empty directory. -/
theorem C8_witness :
    (write_json_file (write_json_file [] (str "7") rec1).1 (str "7") rec2).1.filter
      (fun p => decide (p.1 = str "7" ++ str ".json")) =
      [(str "7" ++ str ".json", jsonDumps rec2)] :=
  C8_idempotent_persistence [] (str "7") rec1 rec2 (by simp)

/-- C9: absence of an optional field yields its default and never an
error: a missing title element yields the sentinel `No title`, a missing
condition element yields `Unknown`, a missing price element yields
`0.00`, and such a listing is still parsed into a record (given a
resolvable URL, a derivable id, and a passing filter). -/
theorem C9_optional_defaults (item : ItemNode) (cf : Option Str) (u d : Str)
    (hu : item.linkHref = some u) (hne : u ≠ []) (hid : extract_item_id u = some d)
    (hfr : filterRejects cf (itemCondition item) = false) :
    (item.titleElem = none → itemTitle item = str "No title") ∧
    (item.conditionElem = none → itemCondition item = str "Unknown") ∧
    (item.priceElem = none → itemPrice item = str "0.00") ∧
    (parse_item item cf).1 =
      some ⟨itemTitle item, itemCondition item, itemPrice item, u⟩ := by
  refine ⟨?_, ?_, ?_, parse_item_success item cf u d hu hne hid hfr⟩
  · intro h
    simp [itemTitle, h]
  · intro h
    simp [itemCondition, h]
  · intro h
    simp only [itemPrice, h]
    decide

/-- C9 witness: a bare listing with only a product URL gets all three
defaults and is parsed successfully. -/
theorem C9_witness :
    itemTitle itemBare = str "No title" ∧ itemCondition itemBare = str "Unknown" ∧
    itemPrice itemBare = str "0.00" ∧
    (parse_item itemBare none).1 =
      some ⟨str "No title", str "Unknown", str "0.00",
            str "https://www.ebay.com/itm/55"⟩ := by
  have h := C9_optional_defaults itemBare none (str "https://www.ebay.com/itm/55")
    (str "55") (by decide) (by decide) (by decide) (by decide)
  exact ⟨h.1 rfl, h.2.1 rfl, h.2.2.1 rfl, h.2.2.2⟩

/-- C10: a fetch failure on page N still makes `crawl` return normally
with the same result shape as a successful run: page_count counts the
failed page N and item_count is the directory's record count; concretely
a crawl halted by a fetch failure on page 1 returns the same
(page_count, item_count) value as a normal single-page crawl of an empty
page, so the returned value alone cannot distinguish the two. -/
theorem C10_failure_result_shape (env : Env) (cf : Option Str) (fuel : Nat) (u : Str)
    (fs : FS) (pc ic : Nat) (log : List LogEvent) (h : env.fetch u = none) :
    (∃ res, crawlLoop env cf (fuel + 1) (some u) fs pc ic log = some res ∧
      res.pages = pc + 1 ∧ res.items = jsonCount fs) ∧
    (crawl envFail none 1 []).map (fun r => (r.pages, r.items)) =
      (crawl envDone none 1 []).map (fun r => (r.pages, r.items)) :=
  ⟨⟨_, crawlLoop_fetch_fail env cf fuel u fs pc ic log h, rfl, rfl⟩, by decide⟩

/-- C10 witness: the failing transport at a fresh crawl state. -/
theorem C10_witness :
    (∃ res, crawlLoop envFail none 1 (some (str "u")) [] 0 0 [] = some res ∧
      res.pages = 0 + 1 ∧ res.items = jsonCount ([] : FS)) ∧
    (crawl envFail none 1 []).map (fun r => (r.pages, r.items)) =
      (crawl envDone none 1 []).map (fun r => (r.pages, r.items)) :=
  C10_failure_result_shape envFail none 0 (str "u") [] 0 0 [] rfl
